import Mathlib

/-!
Verification development for the in-memory model deployment manager
(`llm_deployment.py`) and the database-backed variant of its registry
(`fastapi-app/src/storage/__init__.py`).

The Python code is shallowly embedded: external effects (GPU discovery,
TCP bind probes, process spawning, `os.kill` liveness checks, HTTP health
checks, clock reads) are passed in as explicit oracle arguments, and the
mutable in-memory dictionary `_deployments` becomes an association list
threaded through each operation.
-/

namespace LlmDeploy

/-- Configuration constant `DEFAULT_HEALTH_PATH = "/health"`. -/
def DEFAULT_HEALTH_PATH : String := "/health"

/-- Configuration constant `LOG_DIR` (default value of `DEPLOY_LOG_DIR`). -/
def LOG_DIR : String := "./deploy_logs"

/-- Lower bound of `PORT_RANGE = (8000, 8999)`. -/
def PORT_RANGE_LOW : Nat := 8000

/-- Upper bound of `PORT_RANGE = (8000, 8999)`. -/
def PORT_RANGE_HIGH : Nat := 8999

/-- One record of the `_deployments` dictionary: the fields stored by
`create_deployment` and surfaced through `DeploymentInfo`. -/
structure Deployment where
  deployment_id : String
  model_path : String
  model_version : Option String
  tags : List String
  gpu_id : Option Nat
  port : Nat
  pid : Option Nat
  status : String
  started_at : Option Nat
  stopped_at : Option Nat
  health_ok : Option Bool
  vllm_cmd : String
  log_file : String
  health_path : String
deriving DecidableEq

/-- The in-memory store `_deployments : Dict[str, dict]`, as an
association list from deployment id to record. -/
abbrev Registry := List (String × Deployment)

/-- Python truthiness of a stored `pid` value (`if pid:`): `None` and `0`
are falsy, every other integer is truthy. -/
def pidTruthy : Option Nat → Bool
  | none => false
  | some p => p != 0

/-- Mutation of the record stored under `dep_id` (a no-op when the id is
absent), mirroring `dep = _deployments.get(dep_id); if dep: ...mutate...`. -/
def updateDep (regs : Registry) (dep_id : String) (f : Deployment → Deployment) :
    Registry :=
  regs.map (fun e => bif e.1 == dep_id then (e.1, f e.2) else e)

/-- `_deployments.pop(deployment_id, None)`: removal of the entry. -/
def popDep (regs : Registry) (dep_id : String) : Registry :=
  regs.filter (fun e => !(e.1 == dep_id))

/-- `VLLM_CMD_TEMPLATE.format(...)` with the default template
`"vllm --model {model_path} --http-port {port} --device-ids {gpu_id} {extra_args}"`;
a missing GPU is substituted as the empty string. -/
def vllmCmdOf (model_path : String) (port : Nat) (gpu_id : Option Nat)
    (extra_args : String) : String :=
  "vllm --model " ++ model_path ++ " --http-port " ++ toString port ++
    " --device-ids " ++ (match gpu_id with | none => "" | some g => toString g) ++
    " " ++ extra_args

/-- `req.health_path or DEFAULT_HEALTH_PATH`: Python `or` falls back to the
default when the value is `None` or the empty string. -/
def effectiveHealthPath : Option String → String
  | none => DEFAULT_HEALTH_PATH
  | some s => if s == "" then DEFAULT_HEALTH_PATH else s

/-- Comparison key of `sorted(gpus, key=lambda x: x[1], reverse=True)`:
entry `a` sorts no later than entry `b` when `b`'s free memory does not
exceed `a`'s.  `List.mergeSort` with this relation is stable, like
Python's sort. -/
def gpuLe (a b : Nat × Nat) : Bool := b.2 ≤ a.2

/-- `pick_gpu(preferred)`: over the discovered list of
`(gpu index, free memory)` pairs, return `None` on an empty list; return
`preferred` when it occurs in the list; otherwise the index of the entry
with maximal free memory, first occurrence winning ties (stable sort). -/
def pick_gpu (gpus : List (Nat × Nat)) (preferred : Option Nat) : Option Nat :=
  match gpus with
  | [] => none
  | g₀ :: rest =>
    let fromPreferred : Option Nat :=
      match preferred with
      | none => none
      | some pref => ((g₀ :: rest).find? (fun g => g.1 == pref)).map (fun g => g.1)
    match fromPreferred with
    | some gid => some gid
    | none => some (((g₀ :: rest).mergeSort gpuLe).headI.1)

/-- The loop body of `find_free_port`: `for p in range(low, high+1)` is an
ascending scan with `high + 1 - low` iterations starting at `low`;
`portFree` is the outcome of the bind-and-release probe `is_port_free`. -/
def scan_ports (portFree : Nat → Bool) : Nat → Nat → Except String Nat
  | _, 0 => .error "no free port available"
  | p, Nat.succ fuel => if portFree p then .ok p else scan_ports portFree (p + 1) fuel

/-- `find_free_port(low, high)`: first free port of the inclusive ascending
range, or `RuntimeError("no free port available")`. -/
def find_free_port (low high : Nat) (portFree : Nat → Bool) : Except String Nat :=
  scan_ports portFree low (high + 1 - low)

/-- The probe loop of `_background_health_check`:
`for _ in range(12): if check_http_health(...): success = True; break`.
`http i` is the outcome of the `i`-th `check_http_health` call (200 on the
health path, or on the root-path fallback).  Returns the success flag and
the number of HTTP attempts made. -/
def probeLoop (http : Nat → Bool) : Nat → Nat → Bool × Nat
  | 0, i => (false, i)
  | Nat.succ fuel, i => if http i then (true, i + 1) else probeLoop http fuel (i + 1)

/-- `_background_health_check(dep_id, pid_val, port_val, health_path)`:
after the 1s grace sleep, `alive` is the outcome of `os.kill(pid_val, 0)`.
A dead process marks the record `stopped`/`health_ok=False`/`stopped_at=now`
with no HTTP attempt; otherwise up to 12 HTTP probes run and the record is
marked `running` with `health_ok` equal to the loop's success flag.  The
second component counts the HTTP attempts made. -/
def background_health_check (dep_id : String) (pid_val : Nat) (alive : Bool)
    (http : Nat → Bool) (now : Nat) (regs : Registry) : Registry × Nat :=
  if alive then
    let r := probeLoop http 12 0
    (updateDep regs dep_id
      (fun d => { d with status := "running", health_ok := some r.1 }), r.2)
  else
    (updateDep regs dep_id
      (fun d => { d with status := "stopped", health_ok := some false,
                         stopped_at := some now }), 0)

/-- Outcome of `create_deployment`: the created record (HTTP 201), or
`HTTPException(503)` when no port is free, or `HTTPException(500)` when the
spawn raised. -/
inductive CreateResult where
  | created (info : Deployment)
  | noPort (detail : String)
  | launchFailed (detail : String)
deriving DecidableEq

/-- The dictionary that `create_deployment` stores.  Both insertion sites
build the same fields; they differ only in `pid`, `status` and
`stopped_at`: the failure path stores `pid=None, status="failed",
stopped_at=now2`, the success path `pid, status="starting",
stopped_at=None`.  `health_ok` is `False` on both. -/
def newRecord (model_path : String) (model_version : Option String)
    (tags : List String) (extra_args : String) (health_path : Option String)
    (gpu_id : Option Nat) (port : Nat) (dep_id : String) (now : Nat)
    (pid : Option Nat) (status : String) (stopped_at : Option Nat) : Deployment :=
  { deployment_id := dep_id, model_path := model_path,
    model_version := model_version, tags := tags, gpu_id := gpu_id,
    port := port, pid := pid, status := status,
    started_at := some now, stopped_at := stopped_at,
    health_ok := some false,
    vllm_cmd := vllmCmdOf model_path port gpu_id extra_args,
    log_file := LOG_DIR ++ "/" ++ dep_id ++ ".log",
    health_path := effectiveHealthPath health_path }

/-- `create_deployment(req)`.  Oracles: `gpus` is the discovery result
consumed by `pick_gpu`, `portFree` drives `find_free_port`, `spawn` is the
outcome of `start_vllm_process` (the new pid, or the raised error),
`dep_id` is the generated uuid, `now`/`now2` are the two `time.time()`
reads.  The third component records whether a spawn was attempted. -/
def create_deployment (model_path : String) (model_version : Option String)
    (tags : List String) (extra_args : String) (preferred_gpu : Option Nat)
    (health_path : Option String) (gpus : List (Nat × Nat)) (portFree : Nat → Bool)
    (low high : Nat) (spawn : Except String Nat) (dep_id : String) (now now2 : Nat)
    (regs : Registry) : CreateResult × Registry × Bool :=
  let gpu_id := pick_gpu gpus preferred_gpu
  match find_free_port low high portFree with
  | .error msg => (.noPort msg, regs, false)
  | .ok port =>
    match spawn with
    | .error msg =>
      let info := newRecord model_path model_version tags extra_args health_path
        gpu_id port dep_id now none "failed" (some now2)
      (.launchFailed msg, (dep_id, info) :: regs, true)
    | .ok pid =>
      let info := newRecord model_path model_version tags extra_args health_path
        gpu_id port dep_id now (some pid) "starting" none
      (.created info, (dep_id, info) :: regs, true)

/-- The lazy-refresh mutation shared by `get_deployment` and
`list_deployments`: a live process makes the record `running` with
`health_ok` from a fresh synchronous HTTP check, a dead one makes it
`stopped` with `health_ok=False`. -/
def refresh_info (alive http : Bool) (d : Deployment) : Deployment :=
  { d with status := if alive then "running" else "stopped",
           health_ok := some (if alive then http else false) }

/-- Outcome of `get_deployment`: HTTP 404 or the (refreshed) record. -/
inductive GetResult where
  | notFound
  | found (info : Deployment)
deriving DecidableEq

/-- `get_deployment(deployment_id)`: look the record up, and when its pid
is truthy refresh it in place from the liveness check (`alive`) and the
synchronous HTTP health check (`http`). -/
def get_deployment (dep_id : String) (alive http : Bool) (regs : Registry) :
    GetResult × Registry :=
  match regs.lookup dep_id with
  | none => (.notFound, regs)
  | some info =>
    if pidTruthy info.pid then
      (.found (refresh_info alive http info),
       updateDep regs dep_id (refresh_info alive http))
    else (.found info, regs)

/-- Outcome of `delete_deployment`: HTTP 404, HTTP 409 (graceful timeout
without force), or HTTP 200 with removal. -/
inductive DeleteResult where
  | notFound
  | conflict
  | removed
deriving DecidableEq

/-- Signals sent by `delete_deployment`: SIGTERM/SIGKILL, either to the
process group (`os.killpg(os.getpgid(pid), ...)`) or to the single pid on
the fallback path. -/
inductive SignalEvent where
  | termGroup (pid : Nat)
  | termPid (pid : Nat)
  | killGroup (pid : Nat)
  | killPid (pid : Nat)
deriving DecidableEq

/-- `delete_deployment(deployment_id, force)`.  Oracles:
`exitsWithinTimeout` is the outcome of the 10s poll loop after SIGTERM,
`pgidOk` tells whether `os.getpgid`/`os.killpg` succeed (otherwise the
per-pid fallback signal is used).  Returns the HTTP outcome, the new
registry, and the signals sent. -/
def delete_deployment (dep_id : String) (force exitsWithinTimeout pgidOk : Bool)
    (now : Nat) (regs : Registry) : DeleteResult × Registry × List SignalEvent :=
  match regs.lookup dep_id with
  | none => (.notFound, regs, [])
  | some info =>
    let regs1 := updateDep regs dep_id (fun d => { d with status := "stopping" })
    if pidTruthy info.pid then
      let p := info.pid.getD 0
      let termEvt := if pgidOk then SignalEvent.termGroup p else SignalEvent.termPid p
      if exitsWithinTimeout then
        (.removed, popDep regs1 dep_id, [termEvt])
      else if force then
        (.removed, popDep regs1 dep_id,
         [termEvt, if pgidOk then SignalEvent.killGroup p else SignalEvent.killPid p])
      else
        (.conflict, updateDep regs1 dep_id (fun d => { d with status := "stopping" }),
         [termEvt])
    else
      (.removed, popDep regs1 dep_id, [])

/-- Python `str.lower()` on the characters of a string, as used by the
status filter of `list_deployments`. -/
def lowerChars (s : String) : List Char := s.toList.map Char.toLower

/-- Python truthiness of an optional string filter parameter. -/
def strTruthy : Option String → Bool
  | none => false
  | some s => s != ""

/-- The `model` filter: skip unless the (truthy) query is a substring of
`model_path` (`if model and model not in (info.get("model_path") or "")`). -/
def passModel (model : Option String) (d : Deployment) : Bool :=
  match model with
  | none => true
  | some m => if m == "" then true else decide (m.toList <:+: d.model_path.toList)

/-- The `tag` filter: skip unless the (truthy) query is a member of the
record's tag list. -/
def passTag (tag : Option String) (d : Deployment) : Bool :=
  match tag with
  | none => true
  | some t => if t == "" then true else d.tags.contains t

/-- The `status` filter: skip unless the record's status equals the
(truthy) query case-insensitively. -/
def passStat (status : Option String) (d : Deployment) : Bool :=
  match status with
  | none => true
  | some st => if st == "" then true else lowerChars d.status == lowerChars st

/-- The per-entry refresh of `list_deployments`' first loop: entries with a
truthy pid are refreshed from their liveness and HTTP oracles (keyed by
deployment id), the rest are untouched. -/
def refreshEntry (alive http : String → Bool) (e : String × Deployment) :
    String × Deployment :=
  if pidTruthy e.2.pid then (e.1, refresh_info (alive e.1) (http e.1) e.2) else e

/-- `list_deployments(model, tag, status)`: first refresh every stored
record with a truthy pid, then collect the records passing all three
(AND-ed) filters.  Returns the mutated store and the response list. -/
def list_deployments (model tag status : Option String) (alive http : String → Bool)
    (regs : Registry) : Registry × List Deployment :=
  let regs' := regs.map (refreshEntry alive http)
  (regs',
   (regs'.map (fun e => e.2)).filter
     (fun d => passModel model d && passTag tag d && passStat status d))

/-- `DatabaseStorage.update_deployment(deployment_id, **fields)` from the
FastAPI app's storage layer: `session.get` by primary key, `None` when the
row is absent (no write, no error), otherwise the field assignments are
applied and the updated record returned. -/
def DatabaseStorage.update_deployment (regs : Registry) (dep_id : String)
    (fields : Deployment → Deployment) : Option Deployment × Registry :=
  match regs.lookup dep_id with
  | none => (none, regs)
  | some r => (some (fields r), updateDep regs dep_id fields)

/-- A pending background probe task, as scheduled by
`background_tasks.add_task(_background_health_check, deployment_id, pid,
port, health_path)`. -/
structure ProbeTask where
  dep_id : String
  pid : Nat
  port : Nat
  health_path : String
deriving DecidableEq

/-- Whole-system state: the registry, the pending background probe tasks,
and the set of deployment ids ever generated (uuid4 never repeats, which is
what makes fresh ids fresh). -/
structure SysState where
  regs : Registry
  probes : List ProbeTask
  usedIds : List String

/-- Effect of one `create_deployment` request on the whole system: the
registry mutation of `create_deployment`, plus a scheduled probe task on
the success path, plus the consumption of the generated uuid (no uuid is
generated on the no-port path, which returns before `uuid.uuid4()`). -/
def create_sys (model_path : String) (model_version : Option String)
    (tags : List String) (extra_args : String) (preferred_gpu : Option Nat)
    (health_path : Option String) (gpus : List (Nat × Nat)) (portFree : Nat → Bool)
    (low high : Nat) (spawn : Except String Nat) (dep_id : String) (now now2 : Nat)
    (s : SysState) : SysState :=
  match create_deployment model_path model_version tags extra_args preferred_gpu
      health_path gpus portFree low high spawn dep_id now now2 s.regs with
  | (.created info, regs', _) =>
    { regs := regs',
      probes := { dep_id := dep_id, pid := info.pid.getD 0, port := info.port,
                  health_path := info.health_path } :: s.probes,
      usedIds := dep_id :: s.usedIds }
  | (.launchFailed _, regs', _) =>
    { regs := regs', probes := s.probes, usedIds := dep_id :: s.usedIds }
  | (.noPort _, regs', _) =>
    { regs := regs', probes := s.probes, usedIds := s.usedIds }

/-- The atomic registry mutations of the deployment manager, as a step
relation on whole-system states.  Each foreground operation contributes its
lock-protected mutation; `deleteMark` is the intermediate "status :=
stopping" write of `delete_deployment` (the lock is released while it
signals and polls), and `probeDone` is the single write-back of a pending
background probe, which runs unsupervised and may fire at any later
point. -/
inductive Step : SysState → SysState → Prop where
  | create (s : SysState) (model_path : String) (model_version : Option String)
      (tags : List String) (extra_args : String) (preferred_gpu : Option Nat)
      (health_path : Option String) (gpus : List (Nat × Nat)) (portFree : Nat → Bool)
      (low high : Nat) (spawn : Except String Nat) (dep_id : String) (now now2 : Nat)
      (hfresh : dep_id ∉ s.usedIds) :
      Step s (create_sys model_path model_version tags extra_args preferred_gpu
        health_path gpus portFree low high spawn dep_id now now2 s)
  | get (s : SysState) (dep_id : String) (alive http : Bool) :
      Step s { s with regs := (get_deployment dep_id alive http s.regs).2 }
  | listRefresh (s : SysState) (model tag status : Option String)
      (alive http : String → Bool) :
      Step s { s with regs := (list_deployments model tag status alive http s.regs).1 }
  | deleteFull (s : SysState) (dep_id : String) (force exitsWithinTimeout pgidOk : Bool)
      (now : Nat) :
      Step s { s with
        regs := (delete_deployment dep_id force exitsWithinTimeout pgidOk now s.regs).2.1 }
  | deleteMark (s : SysState) (dep_id : String) :
      Step s { s with
        regs := updateDep s.regs dep_id (fun d => { d with status := "stopping" }) }
  | probeDone (s : SysState) (t : ProbeTask) (ht : t ∈ s.probes) (alive : Bool)
      (http : Nat → Bool) (now : Nat) :
      Step s { regs := (background_health_check t.dep_id t.pid alive http now s.regs).1,
               probes := s.probes.erase t, usedIds := s.usedIds }

/-- The empty initial system state (`_deployments = {}`). -/
def initState : SysState := { regs := [], probes := [], usedIds := [] }

/-- States reachable from the empty store by the manager's operations. -/
def Reachable (s : SysState) : Prop := Relation.ReflTransGen Step initState s

/-! ### Basic lemmas about the registry primitives -/

theorem lookup_updateDep_self (regs : Registry) (dep_id : String)
    (f : Deployment → Deployment) :
    (updateDep regs dep_id f).lookup dep_id = (regs.lookup dep_id).map f := by
  induction regs with
  | nil => rfl
  | cons e t ih =>
    obtain ⟨a, b⟩ := e
    by_cases h : a = dep_id
    · subst h
      simp [updateDep, List.lookup_cons, ih]
    · simp only [updateDep, List.map_cons, beq_false_of_ne h, Bool.cond_false]
      simpa [List.lookup_cons, beq_false_of_ne (Ne.symm h)] using ih

theorem updateDep_of_lookup_none (regs : Registry) (dep_id : String)
    (f : Deployment → Deployment) (h : regs.lookup dep_id = none) :
    updateDep regs dep_id f = regs := by
  induction regs with
  | nil => rfl
  | cons e t ih =>
    obtain ⟨a, b⟩ := e
    by_cases hk : dep_id = a
    · subst hk
      simp [List.lookup_cons] at h
    · simp only [List.lookup_cons, beq_false_of_ne hk] at h
      simp only [updateDep, List.map_cons, beq_false_of_ne (Ne.symm hk),
        Bool.cond_false]
      simpa [updateDep] using ih h

theorem lookup_popDep_self (regs : Registry) (dep_id : String) :
    (popDep regs dep_id).lookup dep_id = none := by
  induction regs with
  | nil => rfl
  | cons e t ih =>
    obtain ⟨a, b⟩ := e
    by_cases h : a = dep_id
    · subst h
      simpa [popDep] using ih
    · simp only [popDep, List.filter_cons, beq_false_of_ne h, Bool.not_false,
        if_pos]
      simpa [List.lookup_cons, beq_false_of_ne (Ne.symm h), popDep] using ih

theorem lookup_eq_of_mem_nodup (regs : Registry) (dep_id : String) (d : Deployment)
    (hnd : (regs.map Prod.fst).Nodup) (hmem : (dep_id, d) ∈ regs) :
    regs.lookup dep_id = some d := by
  induction regs with
  | nil => cases hmem
  | cons e t ih =>
    obtain ⟨a, b⟩ := e
    simp only [List.map_cons, List.nodup_cons] at hnd
    rcases List.mem_cons.mp hmem with h | h
    · cases h
      simp [List.lookup_cons]
    · have hne : dep_id ≠ a := by
        rintro rfl
        exact hnd.1 (List.mem_map.mpr ⟨(dep_id, d), h, rfl⟩)
      simpa [List.lookup_cons, beq_false_of_ne hne] using ih hnd.2 h

theorem mem_updateDep {regs : Registry} {dep_id : String}
    {f : Deployment → Deployment} {e' : String × Deployment}
    (h : e' ∈ updateDep regs dep_id f) :
    ∃ e ∈ regs, e' = e ∨ (e'.1 = e.1 ∧ e.1 = dep_id ∧ e'.2 = f e.2) := by
  rcases List.mem_map.mp h with ⟨e, he, rfl⟩
  refine ⟨e, he, ?_⟩
  by_cases hk : e.1 = dep_id
  · right
    subst hk
    simp
  · left
    simp [beq_false_of_ne hk]

theorem mem_refreshMap {regs : Registry} {alive http : String → Bool}
    {e' : String × Deployment} (h : e' ∈ regs.map (refreshEntry alive http)) :
    ∃ e ∈ regs, e' = e ∨
      (pidTruthy e.2.pid = true ∧
       e' = (e.1, refresh_info (alive e.1) (http e.1) e.2)) := by
  rcases List.mem_map.mp h with ⟨e, he, rfl⟩
  refine ⟨e, he, ?_⟩
  by_cases hp : pidTruthy e.2.pid = true
  · right
    exact ⟨hp, by simp [refreshEntry, hp]⟩
  · left
    simp [refreshEntry, hp]

theorem mem_popDep {regs : Registry} {dep_id : String} {e' : String × Deployment}
    (h : e' ∈ popDep regs dep_id) : e' ∈ regs :=
  List.mem_of_mem_filter h

theorem keys_updateDep (regs : Registry) (dep_id : String)
    (f : Deployment → Deployment) :
    (updateDep regs dep_id f).map Prod.fst = regs.map Prod.fst := by
  induction regs with
  | nil => rfl
  | cons e t ih =>
    obtain ⟨a, b⟩ := e
    by_cases hk : (a == dep_id) = true
    · simpa [updateDep, hk] using ih
    · simpa [updateDep, hk] using ih

theorem keys_refreshMap (regs : Registry) (alive http : String → Bool) :
    (regs.map (refreshEntry alive http)).map Prod.fst = regs.map Prod.fst := by
  induction regs with
  | nil => rfl
  | cons e t ih =>
    obtain ⟨a, b⟩ := e
    by_cases hp : pidTruthy b.pid = true
    · simpa [refreshEntry, hp] using ih
    · simpa [refreshEntry, hp] using ih

theorem keys_popDep (regs : Registry) (dep_id : String) :
    ((popDep regs dep_id).map Prod.fst).Sublist (regs.map Prod.fst) := by
  exact (List.filter_sublist regs).map Prod.fst

theorem fst_refreshEntry (alive http : String → Bool) (e : String × Deployment) :
    (refreshEntry alive http e).1 = e.1 := by
  by_cases hp : pidTruthy e.2.pid = true
  · simp [refreshEntry, hp]
  · simp [refreshEntry, hp]

theorem lookup_refreshMap (regs : Registry) (alive http : String → Bool)
    (dep_id : String) (d : Deployment)
    (hnd : (regs.map Prod.fst).Nodup) (hmem : (dep_id, d) ∈ regs) :
    (regs.map (refreshEntry alive http)).lookup dep_id
      = some (refreshEntry alive http (dep_id, d)).2 := by
  have h1 : ((regs.map (refreshEntry alive http)).map Prod.fst).Nodup := by
    rw [keys_refreshMap]
    exact hnd
  have heq : refreshEntry alive http (dep_id, d)
      = (dep_id, (refreshEntry alive http (dep_id, d)).2) := by
    exact Prod.ext (fst_refreshEntry alive http (dep_id, d)) rfl
  have hm : (dep_id, (refreshEntry alive http (dep_id, d)).2)
      ∈ regs.map (refreshEntry alive http) := by
    rw [← heq]
    exact List.mem_map.mpr ⟨(dep_id, d), hmem, rfl⟩
  exact lookup_eq_of_mem_nodup _ _ _ h1 hm

theorem probeLoop_fst_iff (http : Nat → Bool) :
    ∀ fuel i : Nat,
      (probeLoop http fuel i).1 = true ↔ ∃ j, j < fuel ∧ http (i + j) = true := by
  intro fuel
  induction fuel with
  | zero =>
    intro i
    simp [probeLoop]
  | succ k ih =>
    intro i
    by_cases h : http i = true
    · constructor
      · intro
        exact ⟨0, Nat.succ_pos k, by simpa using h⟩
      · intro
        simp [probeLoop, h]
    · have hft : (probeLoop http (k + 1) i).1 = (probeLoop http k (i + 1)).1 := by
        simp [probeLoop, h]
      rw [hft, ih (i + 1)]
      constructor
      · rintro ⟨j, hj, hh⟩
        refine ⟨j + 1, by omega, ?_⟩
        rw [show i + (j + 1) = i + 1 + j from by omega]
        exact hh
      · rintro ⟨j, hj, hh⟩
        cases j with
        | zero =>
          rw [Nat.add_zero] at hh
          exact absurd hh h
        | succ j' =>
          refine ⟨j', by omega, ?_⟩
          rw [show i + 1 + j' = i + (j' + 1) from by omega]
          exact hh

/-! ### C1: final states of the background health probe -/

/-- C1.  For a deployment record that is still present when its background
probe runs to completion: a live process whose worker answers 200 within
the 12-attempt window yields `status="running", health_ok=True`; a live
process that never answers yields `status="running", health_ok=False`; and
a process already gone when the grace period elapses yields
`status="stopped", health_ok=False` with `stopped_at` set and zero HTTP
probe attempts. -/
theorem background_probe_end_states (dep_id : String) (pid_val : Nat)
    (alive : Bool) (http : Nat → Bool) (now : Nat) (regs : Registry)
    (d : Deployment) (hd : regs.lookup dep_id = some d) :
    (alive = true → (∃ i, i < 12 ∧ http i = true) →
      (background_health_check dep_id pid_val alive http now regs).1.lookup dep_id
        = some { d with status := "running", health_ok := some true })
  ∧ (alive = true → (∀ i, i < 12 → http i = false) →
      (background_health_check dep_id pid_val alive http now regs).1.lookup dep_id
        = some { d with status := "running", health_ok := some false })
  ∧ (alive = false →
      (background_health_check dep_id pid_val alive http now regs).1.lookup dep_id
        = some { d with status := "stopped", health_ok := some false,
                        stopped_at := some now }
      ∧ (background_health_check dep_id pid_val alive http now regs).2 = 0) := by
  refine ⟨?_, ?_, ?_⟩
  · rintro rfl hsucc
    have hs : (probeLoop http 12 0).1 = true := by
      rw [probeLoop_fst_iff]
      rcases hsucc with ⟨i, hi, hh⟩
      exact ⟨i, hi, by simpa using hh⟩
    simp [background_health_check, lookup_updateDep_self, hd, hs]
  · rintro rfl hfail
    have hs : (probeLoop http 12 0).1 = false := by
      rw [← Bool.not_eq_true, probeLoop_fst_iff]
      rintro ⟨j, hj, hh⟩
      rw [Nat.zero_add] at hh
      exact absurd hh (by simp [hfail j hj])
    simp [background_health_check, lookup_updateDep_self, hd, hs]
  · rintro rfl
    constructor
    · simp [background_health_check, lookup_updateDep_self, hd]
    · simp [background_health_check]

/-- A concrete just-started record used by the witnesses. -/
def sampleRec : Deployment :=
  { deployment_id := "d1", model_path := "m", model_version := none,
    tags := [], gpu_id := none, port := 8000, pid := some 42,
    status := "starting", started_at := some 1, stopped_at := none,
    health_ok := some false, vllm_cmd := "c", log_file := "l",
    health_path := "/health" }

/-- Witness for C1 at a concrete input: a present record, a live process,
and a worker that answers on the third attempt. -/
theorem background_probe_end_states_witness :
    (background_health_check "d1" 42 true (fun i => i == 2) 9
        [("d1", sampleRec)]).1.lookup "d1"
      = some { sampleRec with status := "running", health_ok := some true } :=
  (background_probe_end_states "d1" 42 true (fun i => i == 2) 9
    [("d1", sampleRec)] sampleRec rfl).1 rfl ⟨2, by omega, rfl⟩

/-! ### C2: delete on a live, non-cooperative process -/

/-- C2.  Deleting an existing deployment whose live process does not exit
within the graceful-termination timeout: with `force=false` the call ends
in a 409 conflict and the record survives with `status="stopping"`; with
`force=true` a SIGKILL is sent to the process group, the call returns 200,
and the record is removed. -/
theorem delete_non_cooperative (dep_id : String) (now : Nat) (regs : Registry)
    (d : Deployment) (p : Nat) (hd : regs.lookup dep_id = some d)
    (hpid : d.pid = some p) (hp : p ≠ 0) :
    ((delete_deployment dep_id false false true now regs).1 = DeleteResult.conflict
      ∧ (delete_deployment dep_id false false true now regs).2.1.lookup dep_id
          = some { d with status := "stopping" })
  ∧ ((delete_deployment dep_id true false true now regs).1 = DeleteResult.removed
      ∧ (delete_deployment dep_id true false true now regs).2.1.lookup dep_id = none
      ∧ SignalEvent.killGroup p
          ∈ (delete_deployment dep_id true false true now regs).2.2) := by
  have hpt : pidTruthy d.pid = true := by simp [pidTruthy, hpid, hp]
  refine ⟨⟨?_, ?_⟩, ?_, ?_, ?_⟩
  · simp [delete_deployment, hd, hpt]
  · simp [delete_deployment, hd, hpt, lookup_updateDep_self]
  · simp [delete_deployment, hd, hpt]
  · simp [delete_deployment, hd, hpt, lookup_popDep_self]
  · simp [delete_deployment, hd, hpt, hpid, pidTruthy, hp]

/-- Witness for C2: forced delete of a concrete live record removes it. -/
theorem delete_non_cooperative_witness :
    (delete_deployment "d1" true false true 7 [("d1", sampleRec)]).2.1.lookup "d1"
      = none ∧
    SignalEvent.killGroup 42
      ∈ (delete_deployment "d1" true false true 7 [("d1", sampleRec)]).2.2 :=
  ⟨(delete_non_cooperative "d1" 7 [("d1", sampleRec)] sampleRec 42 rfl rfl
      (by decide)).2.2.1,
   (delete_non_cooperative "d1" 7 [("d1", sampleRec)] sampleRec 42 rfl rfl
      (by decide)).2.2.2⟩

/-! ### C4: ascending port scan and the exhausted-range outcome -/

theorem scan_ports_ok (portFree : Nat → Bool) :
    ∀ fuel start p : Nat, scan_ports portFree start fuel = .ok p →
      start ≤ p ∧ p < start + fuel ∧ portFree p = true ∧
        ∀ q, start ≤ q → q < p → portFree q = false := by
  intro fuel
  induction fuel with
  | zero =>
    intro start p h
    simp [scan_ports] at h
  | succ k ih =>
    intro start p h
    by_cases hf : portFree start = true
    · simp [scan_ports, hf] at h
      subst h
      exact ⟨Nat.le_refl _, by omega, hf, fun q hq hqp => by omega⟩
    · simp [scan_ports, hf] at h
      obtain ⟨h1, h2, h3, h4⟩ := ih (start + 1) p h
      refine ⟨by omega, by omega, h3, ?_⟩
      intro q hq hqp
      rcases Nat.eq_or_lt_of_le hq with rfl | hlt
      · simpa using hf
      · exact h4 q (by omega) hqp

theorem scan_ports_error (portFree : Nat → Bool) :
    ∀ fuel start : Nat, (∀ q, start ≤ q → q < start + fuel → portFree q = false) →
      scan_ports portFree start fuel = .error "no free port available" := by
  intro fuel
  induction fuel with
  | zero =>
    intro start _
    rfl
  | succ k ih =>
    intro start h
    have hf : portFree start = false := h start (Nat.le_refl _) (by omega)
    simp [scan_ports, hf]
    exact ih (start + 1) (fun q hq hq' => h q (by omega) (by omega))

/-- C4.  Port allocation scans `[low, high]` in ascending order and returns
the first free port; when the whole range is occupied it fails with
`RuntimeError` ("ResourceExhausted"), in which case `create_deployment`
answers 503 with the registry unchanged and no spawn attempted. -/
theorem port_allocation_spec (low high : Nat) (portFree : Nat → Bool)
    (model_path : String) (model_version : Option String) (tags : List String)
    (extra_args : String) (preferred_gpu : Option Nat) (health_path : Option String)
    (gpus : List (Nat × Nat)) (spawn : Except String Nat) (dep_id : String)
    (now now2 : Nat) (regs : Registry) :
    (∀ p, find_free_port low high portFree = .ok p →
      low ≤ p ∧ p ≤ high ∧ portFree p = true ∧
        ∀ q, low ≤ q → q < p → portFree q = false)
  ∧ ((∀ p, low ≤ p → p ≤ high → portFree p = false) →
      find_free_port low high portFree = .error "no free port available"
      ∧ create_deployment model_path model_version tags extra_args preferred_gpu
          health_path gpus portFree low high spawn dep_id now now2 regs
        = (.noPort "no free port available", regs, false)) := by
  constructor
  · intro p h
    obtain ⟨h1, h2, h3, h4⟩ := scan_ports_ok portFree (high + 1 - low) low p h
    exact ⟨h1, by omega, h3, h4⟩
  · intro hocc
    have herr : find_free_port low high portFree = .error "no free port available" :=
      scan_ports_error portFree (high + 1 - low) low
        (fun q hq hq' => hocc q hq (by omega))
    exact ⟨herr, by simp [create_deployment, herr]⟩

/-- Witness for C4: a fully occupied two-port range makes `create` return
503 on an unchanged empty registry without spawning. -/
theorem port_allocation_spec_witness :
    find_free_port 8000 8001 (fun _ => false) = .error "no free port available"
    ∧ create_deployment "m" none [] "" none none [] (fun _ => false) 8000 8001
        (Except.ok 7) "d1" 1 2 []
      = (.noPort "no free port available", [], false) :=
  (port_allocation_spec 8000 8001 (fun _ => false) "m" none [] "" none none []
    (Except.ok 7) "d1" 1 2 []).2 (fun _ _ _ => rfl)

/-! ### C5: spawn failure persists a failed record and answers 500 -/

/-- C5.  When the worker spawn raises, `create_deployment` persists a
record with `status="failed"` and `pid=None` (rather than discarding the
attempt) and fails with HTTP 500. -/
theorem launch_failure_persists_failed (model_path : String)
    (model_version : Option String) (tags : List String) (extra_args : String)
    (preferred_gpu : Option Nat) (health_path : Option String)
    (gpus : List (Nat × Nat)) (portFree : Nat → Bool) (low high : Nat)
    (dep_id : String) (now now2 : Nat) (regs : Registry) (port : Nat) (msg : String)
    (hport : find_free_port low high portFree = .ok port) :
    (create_deployment model_path model_version tags extra_args preferred_gpu
        health_path gpus portFree low high (.error msg) dep_id now now2 regs).1
      = .launchFailed msg
  ∧ ((create_deployment model_path model_version tags extra_args preferred_gpu
        health_path gpus portFree low high (.error msg) dep_id now now2
        regs).2.1.lookup dep_id).map Deployment.status = some "failed"
  ∧ ((create_deployment model_path model_version tags extra_args preferred_gpu
        health_path gpus portFree low high (.error msg) dep_id now now2
        regs).2.1.lookup dep_id).map Deployment.pid = some none := by
  refine ⟨?_, ?_, ?_⟩ <;>
    simp [create_deployment, newRecord, hport, List.lookup_cons]

/-- Witness for C5 at a concrete failing spawn. -/
theorem launch_failure_persists_failed_witness :
    (create_deployment "m" none [] "" none none [] (fun _ => true) 8000 8999
        (.error "boom") "d1" 1 2 []).1 = .launchFailed "boom"
  ∧ ((create_deployment "m" none [] "" none none [] (fun _ => true) 8000 8999
        (.error "boom") "d1" 1 2 []).2.1.lookup "d1").map Deployment.status
      = some "failed"
  ∧ ((create_deployment "m" none [] "" none none [] (fun _ => true) 8000 8999
        (.error "boom") "d1" 1 2 []).2.1.lookup "d1").map Deployment.pid
      = some none :=
  launch_failure_persists_failed "m" none [] "" none none [] (fun _ => true)
    8000 8999 "d1" 1 2 [] 8000 "boom" rfl

/-! ### C6: what the lazy refresh of `get` actually writes -/

/-- Counterexample to C6 as stated: on a record whose process is alive, the
lazy refresh does not leave `status` unchanged — a record in `starting`
comes back (and is stored) as `running`. -/
theorem get_refresh_changes_status_cex :
    ((get_deployment "d1" true true [("d1", sampleRec)]).2.lookup "d1").map
        Deployment.status = some "running"
  ∧ sampleRec.status = "starting"
  ∧ ((get_deployment "d1" true true [("d1", sampleRec)]).2.lookup "d1").map
        Deployment.status ≠ some sampleRec.status := by
  refine ⟨by decide, rfl, by decide⟩

/-- C6 as amended.  The lazy refresh of `get` on a record with a truthy
pid rewrites exactly `status` and `health_ok` and nothing else: when the
process is alive it stores `status="running"` and `health_ok` from the
fresh HTTP check, when dead it stores `status="stopped"`,
`health_ok=False`; the returned record equals the stored one. -/
theorem get_refresh_updates (dep_id : String) (alive http : Bool)
    (regs : Registry) (d : Deployment) (hd : regs.lookup dep_id = some d)
    (hpid : pidTruthy d.pid = true) :
    (alive = true →
      (get_deployment dep_id alive http regs).1
        = .found { d with status := "running", health_ok := some http }
      ∧ (get_deployment dep_id alive http regs).2.lookup dep_id
        = some { d with status := "running", health_ok := some http })
  ∧ (alive = false →
      (get_deployment dep_id alive http regs).1
        = .found { d with status := "stopped", health_ok := some false }
      ∧ (get_deployment dep_id alive http regs).2.lookup dep_id
        = some { d with status := "stopped", health_ok := some false }) := by
  constructor <;> rintro rfl <;>
    exact ⟨by simp [get_deployment, hd, hpid, refresh_info],
           by simp [get_deployment, hd, hpid, refresh_info, lookup_updateDep_self]⟩

/-- Witness for the amended C6 at a concrete alive record. -/
theorem get_refresh_updates_witness :
    (get_deployment "d1" true false [("d1", sampleRec)]).2.lookup "d1"
      = some { sampleRec with status := "running", health_ok := some false } :=
  ((get_refresh_updates "d1" true false [("d1", sampleRec)] sampleRec rfl
      (by decide)).1 rfl).2

/-! ### C7: the value of `health_ok` on a freshly created record -/

/-- Counterexample to C7 as stated: a successfully created record carries
`health_ok = False` (a boolean), not the unknown state `None`. -/
theorem health_ok_unknown_at_creation_cex :
    ((create_deployment "m" none [] "" none none [] (fun _ => true) 8000 8999
        (Except.ok 77) "d1" 5 6 []).2.1.lookup "d1").map Deployment.health_ok
      = some (some false) := by
  decide

/-- C7 as amended.  Every record inserted by `create_deployment` (both the
`starting` record of a successful spawn and the `failed` record of a spawn
error) starts with `health_ok = False`; the flag only becomes meaningful
when a probe or refresh later overwrites it. -/
theorem health_ok_false_at_creation (model_path : String)
    (model_version : Option String) (tags : List String) (extra_args : String)
    (preferred_gpu : Option Nat) (health_path : Option String)
    (gpus : List (Nat × Nat)) (portFree : Nat → Bool) (low high : Nat)
    (spawn : Except String Nat) (dep_id : String) (now now2 : Nat)
    (regs : Registry) (info : Deployment) (hfresh : regs.lookup dep_id = none)
    (hins : (create_deployment model_path model_version tags extra_args
        preferred_gpu health_path gpus portFree low high spawn dep_id now now2
        regs).2.1.lookup dep_id = some info) :
    info.health_ok = some false := by
  cases hfp : find_free_port low high portFree with
  | error msg =>
    rw [create_deployment] at hins
    simp only [hfp] at hins
    rw [hfresh] at hins
    cases hins
  | ok port =>
    cases spawn with
    | error msg =>
      rw [create_deployment] at hins
      simp only [hfp, List.lookup_cons, beq_self_eq_true] at hins
      cases hins
      rfl
    | ok pid =>
      rw [create_deployment] at hins
      simp only [hfp, List.lookup_cons, beq_self_eq_true] at hins
      cases hins
      rfl

/-- The record created by a concrete successful `create_deployment` call. -/
def c7Info : Deployment :=
  ((create_deployment "m" none [] "" none none [] (fun _ => true) 8000 8999
      (Except.ok 77) "d1" 5 6 []).2.1.lookup "d1").getD sampleRec

/-- Witness for the amended C7 at a concrete successful creation. -/
theorem health_ok_false_at_creation_witness : c7Info.health_ok = some false :=
  health_ok_false_at_creation "m" none [] "" none none [] (fun _ => true)
    8000 8999 (Except.ok 77) "d1" 5 6 [] c7Info rfl rfl

/-! ### C9: probe writes to a deleted deployment are silent no-ops -/

/-- C9.  A background-probe write-back aimed at a deployment id that is no
longer in the registry leaves the registry unchanged and raises nothing;
likewise `DatabaseStorage.update_deployment` on an absent id returns
`None` without touching the store. -/
theorem probe_write_after_delete_noop (dep_id : String) (pid_val : Nat)
    (alive : Bool) (http : Nat → Bool) (now : Nat) (regs : Registry)
    (fields : Deployment → Deployment) (habs : regs.lookup dep_id = none) :
    (background_health_check dep_id pid_val alive http now regs).1 = regs
  ∧ DatabaseStorage.update_deployment regs dep_id fields = (none, regs) := by
  constructor
  · cases alive <;>
      simp [background_health_check, updateDep_of_lookup_none _ _ _ habs]
  · simp [DatabaseStorage.update_deployment, habs]

/-- Witness for C9: a probe for an absent id on a one-record registry. -/
theorem probe_write_after_delete_noop_witness :
    (background_health_check "gone" 42 true (fun _ => false) 3
        [("d1", sampleRec)]).1 = [("d1", sampleRec)]
  ∧ DatabaseStorage.update_deployment [("d1", sampleRec)] "gone" id
      = (none, [("d1", sampleRec)]) :=
  probe_write_after_delete_noop "gone" 42 true (fun _ => false) 3
    [("d1", sampleRec)] id rfl

/-! ### C10: the in-memory list refreshes everything before filtering -/

/-- C10.  The in-memory `list_deployments` refreshes (writes `status` and
`health_ok`, the latter from an HTTP probe when the process is alive) every
stored record with a truthy pid, for any filter arguments — the mutated
store does not depend on the filters at all, so records the filters later
exclude are refreshed too. -/
theorem list_refreshes_all_before_filters (model tag status : Option String)
    (alive http : String → Bool) (regs : Registry) (dep_id : String)
    (d : Deployment) (hnd : (regs.map Prod.fst).Nodup) (hmem : (dep_id, d) ∈ regs)
    (hpid : pidTruthy d.pid = true) :
    (list_deployments model tag status alive http regs).1.lookup dep_id
      = some (refresh_info (alive dep_id) (http dep_id) d)
  ∧ (list_deployments model tag status alive http regs).1
      = (list_deployments none none none alive http regs).1 := by
  constructor
  · have h := lookup_refreshMap regs alive http dep_id d hnd hmem
    simpa [list_deployments, refreshEntry, hpid] using h
  · rfl

/-- Witness for C10: the single stored record fails the `model` filter
(`"zzz"` is not a substring of `"m"`) yet is still refreshed. -/
theorem list_refreshes_all_before_filters_witness :
    (list_deployments (some "zzz") none none (fun _ => true) (fun _ => false)
        [("d1", sampleRec)]).1.lookup "d1"
      = some (refresh_info true false sampleRec)
  ∧ (list_deployments (some "zzz") none none (fun _ => true) (fun _ => false)
        [("d1", sampleRec)]).2 = [] :=
  ⟨(list_refreshes_all_before_filters (some "zzz") none none (fun _ => true)
      (fun _ => false) [("d1", sampleRec)] "d1" sampleRec (by decide)
      (List.mem_singleton.mpr rfl) (by decide)).1,
   by decide⟩

/-! ### C3: the GPU selector -/

theorem gpuLe_trans : ∀ a b c : Nat × Nat,
    gpuLe a b = true → gpuLe b c = true → gpuLe a c = true := by
  intro a b c
  simp only [gpuLe, decide_eq_true_eq]
  omega

theorem gpuLe_total : ∀ a b : Nat × Nat, (gpuLe a b || gpuLe b a) = true := by
  intro a b
  simp only [gpuLe, Bool.or_eq_true, decide_eq_true_eq]
  omega

theorem sublist_pair_of_mem {α : Type} {l : List α} {x y : α}
    (hx : x ∈ l) (hy : y ∈ l) (hne : x ≠ y) :
    [x, y].Sublist l ∨ [y, x].Sublist l := by
  induction l with
  | nil => cases hx
  | cons a t ih =>
    rcases List.mem_cons.mp hx with rfl | hx'
    · rcases List.mem_cons.mp hy with rfl | hy'
      · exact absurd rfl hne
      · exact Or.inl (List.cons_sublist_cons.mpr (List.singleton_sublist.mpr hy'))
    · rcases List.mem_cons.mp hy with rfl | hy'
      · exact Or.inr (List.cons_sublist_cons.mpr (List.singleton_sublist.mpr hx'))
      · rcases ih hx' hy' with h | h
        · exact Or.inl (h.cons a)
        · exact Or.inr (h.cons a)

theorem mergeSort_head_max (gpus : List (Nat × Nat)) (h0 : Nat × Nat)
    (tl : List (Nat × Nat)) (hs : gpus.mergeSort gpuLe = h0 :: tl) :
    h0 ∈ gpus ∧ ∀ q ∈ gpus, q.2 ≤ h0.2 := by
  have hsorted := List.sorted_mergeSort gpuLe_trans gpuLe_total gpus
  rw [hs] at hsorted
  constructor
  · exact List.mem_mergeSort.mp (hs ▸ List.mem_cons_self h0 tl)
  · intro q hq
    have hq' : q ∈ h0 :: tl := hs ▸ List.mem_mergeSort.mpr hq
    rcases List.mem_cons.mp hq' with rfl | hq''
    · exact Nat.le_refl _
    · have hle := (List.pairwise_cons.mp hsorted).1 q hq''
      simpa [gpuLe, decide_eq_true_eq] using hle

theorem mergeSort_head_tie_lowest (gpus : List (Nat × Nat)) (h0 : Nat × Nat)
    (tl : List (Nat × Nat)) (hasc : gpus.Pairwise (fun a b => a.1 < b.1))
    (hs : gpus.mergeSort gpuLe = h0 :: tl) :
    ∀ q ∈ gpus, q.2 = h0.2 → h0.1 ≤ q.1 := by
  intro q hq htie
  have hh0 : h0 ∈ gpus := (mergeSort_head_max gpus h0 tl hs).1
  by_cases hne : h0 = q
  · exact hne ▸ Nat.le_refl _
  rcases sublist_pair_of_mem hh0 hq hne with h | h
  · have := (List.pairwise_cons.mp (hasc.sublist h)).1 q (List.mem_singleton.mpr rfl)
    exact Nat.le_of_lt this
  · exfalso
    have hql : gpuLe q h0 = true := by
      simp only [gpuLe, decide_eq_true_eq, htie, Nat.le_refl]
    have hstable : [q, h0].Sublist (gpus.mergeSort gpuLe) :=
      List.mergeSort_stable_pair gpuLe_trans gpuLe_total hql h
    rw [hs] at hstable
    rcases List.sublist_cons_iff.mp hstable with h2 | ⟨r, hr, hrs⟩
    · have hmem : h0 ∈ tl :=
        h2.subset (List.mem_cons_of_mem q (List.mem_singleton.mpr rfl))
      have hnd : gpus.Nodup :=
        hasc.imp fun hlt heq => absurd (heq ▸ hlt) (Nat.lt_irrefl _)
      have hndms : (gpus.mergeSort gpuLe).Nodup :=
        (List.mergeSort_perm gpus gpuLe).nodup_iff.mpr hnd
      rw [hs] at hndms
      exact (List.nodup_cons.mp hndms).1 hmem
    · cases hr
      exact hne rfl

/-- C3.  The GPU selector (on a discovery list whose ids are the strictly
ascending device indices the discovery enumerates): it returns `None`
exactly on an empty discovery list; any returned id is a discovered id; a
`preferred` id that is discovered is returned verbatim; and otherwise the
returned id is one with maximal free memory, ties going to the lowest
id. -/
theorem pick_gpu_spec (gpus : List (Nat × Nat)) (preferred : Option Nat)
    (hasc : gpus.Pairwise (fun a b => a.1 < b.1)) :
    (pick_gpu gpus preferred = none ↔ gpus = [])
  ∧ (∀ g, pick_gpu gpus preferred = some g → g ∈ gpus.map Prod.fst)
  ∧ (∀ p, preferred = some p → p ∈ gpus.map Prod.fst →
      pick_gpu gpus preferred = some p)
  ∧ ((∀ p, preferred = some p → p ∉ gpus.map Prod.fst) →
      ∀ g, pick_gpu gpus preferred = some g →
        ∃ m, (g, m) ∈ gpus ∧ (∀ q ∈ gpus, q.2 ≤ m) ∧
          ∀ q ∈ gpus, q.2 = m → g ≤ q.1) := by
  cases gpus with
  | nil =>
    refine ⟨by simp [pick_gpu], ?_, ?_, ?_⟩
    · intro g h
      simp [pick_gpu] at h
    · intro p _ hp
      simp at hp
    · intro _ g h
      simp [pick_gpu] at h
  | cons g₀ rest =>
    obtain ⟨h0, tl, hs⟩ :
        ∃ h0 tl, (g₀ :: rest).mergeSort gpuLe = h0 :: tl := by
      cases hms : (g₀ :: rest).mergeSort gpuLe with
      | nil =>
        have hperm := List.mergeSort_perm (g₀ :: rest) gpuLe
        rw [hms] at hperm
        exact absurd hperm.symm.eq_nil (List.cons_ne_nil g₀ rest)
      | cons a b => exact ⟨a, b, rfl⟩
    have hmax := mergeSort_head_max (g₀ :: rest) h0 tl hs
    have htie := mergeSort_head_tie_lowest (g₀ :: rest) h0 tl hasc hs
    have hsortpick :
        some (((g₀ :: rest).mergeSort gpuLe).headI.1) = some h0.1 := by
      rw [hs]
      rfl
    refine ⟨?_, ?_, ?_, ?_⟩
    · constructor
      · intro h
        exfalso
        cases preferred with
        | none => simp [pick_gpu] at h
        | some pref =>
          cases hf : (g₀ :: rest).find? (fun g => g.1 == pref) with
          | none => simp [pick_gpu, hf] at h
          | some gf => simp [pick_gpu, hf] at h
      · intro h
        exact absurd h (List.cons_ne_nil g₀ rest)
    · intro g h
      cases preferred with
      | none =>
        simp only [pick_gpu, hs] at h
        cases h
        exact List.mem_map.mpr ⟨h0, List.mem_mergeSort.mp (hs ▸ List.mem_cons_self h0 tl), rfl⟩
      | some pref =>
        cases hf : (g₀ :: rest).find? (fun g => g.1 == pref) with
        | none =>
          simp only [pick_gpu, hf, Option.map_none', hs] at h
          cases h
          exact List.mem_map.mpr ⟨h0, hmax.1, rfl⟩
        | some gf =>
          simp only [pick_gpu, hf, Option.map_some'] at h
          cases h
          exact List.mem_map.mpr ⟨gf, List.mem_of_find?_eq_some hf, rfl⟩
    · rintro p rfl hp
      cases hf : (g₀ :: rest).find? (fun g => g.1 == p) with
      | none =>
        exfalso
        rcases List.mem_map.mp hp with ⟨x, hxmem, hx1⟩
        have := List.find?_eq_none.mp hf x hxmem
        simp [hx1] at this
      | some gf =>
        have h2 : gf.1 = p := by
          have h1 := List.find?_some hf
          simpa using h1
        simp only [pick_gpu, hf, Option.map_some']
        rw [h2]
    · intro hnp g h
      have hsort : pick_gpu (g₀ :: rest) preferred = some h0.1 := by
        cases preferred with
        | none =>
          simp only [pick_gpu, hs]
          rfl
        | some pref =>
          have hf : (g₀ :: rest).find? (fun g => g.1 == pref) = none := by
            apply List.find?_eq_none.mpr
            intro x hx
            simp only [beq_iff_eq]
            intro hx1
            exact hnp pref rfl (List.mem_map.mpr ⟨x, hx, hx1⟩)
          simp only [pick_gpu, hf, Option.map_none', hs]
          rfl
      rw [hsort] at h
      cases h
      exact ⟨h0.2, by simpa using hmax.1, hmax.2, htie⟩

/-- Witness for C3: a preferred id that is discovered is returned. -/
theorem pick_gpu_spec_witness :
    pick_gpu [(0, 100), (1, 200), (2, 200)] (some 2) = some 2 :=
  (pick_gpu_spec [(0, 100), (1, 200), (2, 200)] (some 2) (by decide)).2.2.1 2
    rfl (by decide)

/-! ### C8: a record whose pid is unset never reports `running` -/

/-- Every entry of `regs'` descends from an entry of `regs` with the same
key and the same pid (registry mutations never touch `pid`). -/
def EntryShape (regs regs' : Registry) : Prop :=
  ∀ e' ∈ regs', ∃ e ∈ regs, e'.1 = e.1 ∧ e'.2.pid = e.2.pid

/-- The C8 property of a registry. -/
def InvMain (regs : Registry) : Prop :=
  ∀ e ∈ regs, e.2.pid = none → e.2.status ≠ "running"

/-- The inductive invariant: the C8 property, plus: every pending probe
targets a key whose entries all carry a pid; probe targets and registry
keys are used ids; keys are unique. -/
def Inv (s : SysState) : Prop :=
  InvMain s.regs
  ∧ (∀ t ∈ s.probes, ∀ e ∈ s.regs, e.1 = t.dep_id → e.2.pid ≠ none)
  ∧ (∀ t ∈ s.probes, t.dep_id ∈ s.usedIds)
  ∧ (∀ e ∈ s.regs, e.1 ∈ s.usedIds)
  ∧ (s.regs.map Prod.fst).Nodup

theorem pidTruthy_ne_none {o : Option Nat} (h : pidTruthy o = true) : o ≠ none := by
  cases o with
  | none => simp [pidTruthy] at h
  | some p => simp

theorem entryShape_refl (regs : Registry) : EntryShape regs regs :=
  fun e' he' => ⟨e', he', rfl, rfl⟩

theorem entryShape_trans {r1 r2 r3 : Registry} (h12 : EntryShape r1 r2)
    (h23 : EntryShape r2 r3) : EntryShape r1 r3 := by
  intro e' he'
  obtain ⟨e2, he2, hk, hp⟩ := h23 e' he'
  obtain ⟨e1, he1, hk', hp'⟩ := h12 e2 he2
  exact ⟨e1, he1, hk.trans hk', hp.trans hp'⟩

theorem entryShape_updateDep (regs : Registry) (dep_id : String)
    (f : Deployment → Deployment) (hf : ∀ d, (f d).pid = d.pid) :
    EntryShape regs (updateDep regs dep_id f) := by
  intro e' he'
  rcases mem_updateDep he' with ⟨e, he, heq | ⟨h1, _, h3⟩⟩
  · exact ⟨e, he, by rw [heq], by rw [heq]⟩
  · exact ⟨e, he, h1, by rw [h3]; exact hf e.2⟩

theorem entryShape_popDep (regs : Registry) (dep_id : String) :
    EntryShape regs (popDep regs dep_id) :=
  fun e' he' => ⟨e', mem_popDep he', rfl, rfl⟩

theorem entryShape_refreshMap (regs : Registry) (alive http : String → Bool) :
    EntryShape regs (regs.map (refreshEntry alive http)) := by
  intro e' he'
  rcases mem_refreshMap he' with ⟨e, he, heq | ⟨_, heq⟩⟩
  · exact ⟨e, he, by rw [heq], by rw [heq]⟩
  · exact ⟨e, he, by rw [heq], by rw [heq]; rfl⟩

theorem get_regs_cases (dep_id : String) (alive http : Bool) (regs : Registry) :
    (get_deployment dep_id alive http regs).2 = regs
  ∨ (get_deployment dep_id alive http regs).2
      = updateDep regs dep_id (refresh_info alive http) := by
  cases hlk : regs.lookup dep_id with
  | none => exact Or.inl (by simp [get_deployment, hlk])
  | some info =>
    by_cases hp : pidTruthy info.pid = true
    · exact Or.inr (by simp [get_deployment, hlk, hp])
    · exact Or.inl (by simp [get_deployment, hlk, hp])

theorem delete_regs_cases (dep_id : String) (force ex pg : Bool) (now : Nat)
    (regs : Registry) :
    (delete_deployment dep_id force ex pg now regs).2.1 = regs
  ∨ (delete_deployment dep_id force ex pg now regs).2.1
      = updateDep (updateDep regs dep_id (fun d => { d with status := "stopping" }))
          dep_id (fun d => { d with status := "stopping" })
  ∨ (delete_deployment dep_id force ex pg now regs).2.1
      = popDep (updateDep regs dep_id (fun d => { d with status := "stopping" }))
          dep_id := by
  cases hlk : regs.lookup dep_id with
  | none => exact Or.inl (by simp [delete_deployment, hlk])
  | some info =>
    by_cases hp : pidTruthy info.pid = true
    · cases ex with
      | true => exact Or.inr (Or.inr (by simp [delete_deployment, hlk, hp]))
      | false =>
        cases force with
        | true => exact Or.inr (Or.inr (by simp [delete_deployment, hlk, hp]))
        | false => exact Or.inr (Or.inl (by simp [delete_deployment, hlk, hp]))
    · exact Or.inr (Or.inr (by simp [delete_deployment, hlk, hp]))

theorem bg_regs_cases (dep_id : String) (pid_val : Nat) (alive : Bool)
    (http : Nat → Bool) (now : Nat) (regs : Registry) :
    (background_health_check dep_id pid_val alive http now regs).1
      = updateDep regs dep_id (fun d =>
          { d with status := "running", health_ok := some (probeLoop http 12 0).1 })
  ∨ (background_health_check dep_id pid_val alive http now regs).1
      = updateDep regs dep_id (fun d =>
          { d with status := "stopped", health_ok := some false,
                   stopped_at := some now }) := by
  cases alive with
  | true => exact Or.inl rfl
  | false => exact Or.inr rfl

theorem invMain_updateDep_safe (regs : Registry) (dep_id : String)
    (f : Deployment → Deployment) (hf : ∀ d, (f d).status ≠ "running")
    (hm : InvMain regs) : InvMain (updateDep regs dep_id f) := by
  intro e' he' _
  rcases mem_updateDep he' with ⟨e, he, heq | ⟨_, _, h3⟩⟩
  · rename_i hpid
    rw [heq] at hpid ⊢
    exact hm e he hpid
  · rw [h3]
    exact hf e.2

theorem invMain_popDep (regs : Registry) (dep_id : String) (hm : InvMain regs) :
    InvMain (popDep regs dep_id) :=
  fun e' he' => hm e' (mem_popDep he')

theorem stopping_ne_running :
    ∀ d : Deployment, ({ d with status := "stopping" } : Deployment).status ≠ "running" :=
  fun _ h => absurd (show ("stopping" : String) = "running" from h) (by decide)

theorem invMain_refreshMap (regs : Registry) (alive http : String → Bool)
    (hm : InvMain regs) : InvMain (regs.map (refreshEntry alive http)) := by
  intro e' he' hpid
  rcases mem_refreshMap he' with ⟨e, he, heq | ⟨hp, heq⟩⟩
  · rw [heq] at hpid ⊢
    exact hm e he hpid
  · exfalso
    rw [heq] at hpid
    exact pidTruthy_ne_none hp hpid

theorem invMain_get (dep_id : String) (alive http : Bool) (regs : Registry)
    (hnd : (regs.map Prod.fst).Nodup) (hm : InvMain regs) :
    InvMain ((get_deployment dep_id alive http regs).2) := by
  cases hlk : regs.lookup dep_id with
  | none =>
    rcases get_regs_cases dep_id alive http regs with h | h <;> rw [h]
    · exact hm
    · rw [updateDep_of_lookup_none regs dep_id _ hlk]
      exact hm
  | some info =>
    by_cases hp : pidTruthy info.pid = true
    · have h : (get_deployment dep_id alive http regs).2
          = updateDep regs dep_id (refresh_info alive http) := by
        simp [get_deployment, hlk, hp]
      rw [h]
      intro e' he' hpid
      rcases mem_updateDep he' with ⟨e, he, heq | ⟨_, h2, h3⟩⟩
      · rw [heq] at hpid ⊢
        exact hm e he hpid
      · exfalso
        have hee : e = (dep_id, e.2) := Prod.ext h2 rfl
        have hlk2 : regs.lookup dep_id = some e.2 :=
          lookup_eq_of_mem_nodup regs dep_id e.2 hnd (hee ▸ he)
        rw [hlk] at hlk2
        cases hlk2
        have hpn : e.2.pid = none := by
          rw [h3] at hpid
          exact hpid
        rw [hpn] at hp
        simp [pidTruthy] at hp
    · have h : (get_deployment dep_id alive http regs).2 = regs := by
        simp [get_deployment, hlk, hp]
      rw [h]
      exact hm

theorem invMain_delete (dep_id : String) (force ex pg : Bool) (now : Nat)
    (regs : Registry) (hm : InvMain regs) :
    InvMain ((delete_deployment dep_id force ex pg now regs).2.1) := by
  rcases delete_regs_cases dep_id force ex pg now regs with h | h | h <;> rw [h]
  · exact hm
  · exact invMain_updateDep_safe _ _ _ stopping_ne_running
      (invMain_updateDep_safe _ _ _ stopping_ne_running hm)
  · exact invMain_popDep _ _ (invMain_updateDep_safe _ _ _ stopping_ne_running hm)

theorem invMain_bg (dep_id : String) (pid_val : Nat) (alive : Bool)
    (http : Nat → Bool) (now : Nat) (regs : Registry)
    (hp : ∀ e ∈ regs, e.1 = dep_id → e.2.pid ≠ none) (hm : InvMain regs) :
    InvMain ((background_health_check dep_id pid_val alive http now regs).1) := by
  rcases bg_regs_cases dep_id pid_val alive http now regs with h | h <;> rw [h]
  · intro e' he' hpid
    rcases mem_updateDep he' with ⟨e, he, heq | ⟨_, h2, h3⟩⟩
    · rw [heq] at hpid ⊢
      exact hm e he hpid
    · exfalso
      have : e.2.pid = none := by
        rw [h3] at hpid
        exact hpid
      exact hp e he h2 this
  · exact invMain_updateDep_safe _ _ _
      (fun _ h => absurd (show ("stopped" : String) = "running" from h) (by decide)) hm

theorem keys_get (dep_id : String) (alive http : Bool) (regs : Registry) :
    ((get_deployment dep_id alive http regs).2).map Prod.fst
      = regs.map Prod.fst := by
  rcases get_regs_cases dep_id alive http regs with h | h <;> rw [h]
  exact keys_updateDep regs dep_id _

theorem keys_delete (dep_id : String) (force ex pg : Bool) (now : Nat)
    (regs : Registry) :
    (((delete_deployment dep_id force ex pg now regs).2.1).map Prod.fst).Sublist
      (regs.map Prod.fst) := by
  rcases delete_regs_cases dep_id force ex pg now regs with h | h | h <;> rw [h]
  · rw [keys_updateDep, keys_updateDep]
  · have := keys_popDep (updateDep regs dep_id
      (fun d => { d with status := "stopping" })) dep_id
    rwa [keys_updateDep] at this

theorem keys_bg (dep_id : String) (pid_val : Nat) (alive : Bool)
    (http : Nat → Bool) (now : Nat) (regs : Registry) :
    ((background_health_check dep_id pid_val alive http now regs).1).map Prod.fst
      = regs.map Prod.fst := by
  rcases bg_regs_cases dep_id pid_val alive http now regs with h | h <;> rw [h] <;>
    exact keys_updateDep regs dep_id _

theorem entryShape_get (dep_id : String) (alive http : Bool) (regs : Registry) :
    EntryShape regs ((get_deployment dep_id alive http regs).2) := by
  rcases get_regs_cases dep_id alive http regs with h | h <;> rw [h]
  · exact entryShape_refl regs
  · exact entryShape_updateDep _ _ _ (fun d => rfl)

theorem entryShape_delete (dep_id : String) (force ex pg : Bool) (now : Nat)
    (regs : Registry) :
    EntryShape regs ((delete_deployment dep_id force ex pg now regs).2.1) := by
  rcases delete_regs_cases dep_id force ex pg now regs with h | h | h <;> rw [h]
  · exact entryShape_refl regs
  · exact entryShape_trans
      (entryShape_updateDep regs dep_id
        (fun d => { d with status := "stopping" }) (fun d => rfl))
      (entryShape_updateDep _ dep_id
        (fun d => { d with status := "stopping" }) (fun d => rfl))
  · exact entryShape_trans
      (entryShape_updateDep regs dep_id
        (fun d => { d with status := "stopping" }) (fun d => rfl))
      (entryShape_popDep _ dep_id)

theorem entryShape_bg (dep_id : String) (pid_val : Nat) (alive : Bool)
    (http : Nat → Bool) (now : Nat) (regs : Registry) :
    EntryShape regs ((background_health_check dep_id pid_val alive http now regs).1) := by
  rcases bg_regs_cases dep_id pid_val alive http now regs with h | h <;> rw [h] <;>
    exact entryShape_updateDep _ _ _ (fun d => rfl)

/-- Assembling `Inv` for a step that keeps `usedIds`, shrinks the probe
set, and transforms the registry with preserved keys and pids. -/
theorem inv_parts (s : SysState) (regs' : Registry) (probes' : List ProbeTask)
    (hsub : ∀ t ∈ probes', t ∈ s.probes)
    (hshape : EntryShape s.regs regs')
    (hkeq : (regs'.map Prod.fst).Sublist (s.regs.map Prod.fst))
    (hmain' : InvMain regs') (hinv : Inv s) :
    Inv { regs := regs', probes := probes', usedIds := s.usedIds } := by
  obtain ⟨_, hprobe, hused, hkeys, hnd⟩ := hinv
  refine ⟨hmain', ?_, ?_, ?_, ?_⟩
  · intro t ht e' he' hk
    obtain ⟨e, he, hk1, hp1⟩ := hshape e' he'
    rw [hp1]
    exact hprobe t (hsub t ht) e he (hk1 ▸ hk)
  · exact fun t ht => hused t (hsub t ht)
  · intro e' he'
    obtain ⟨e, he, hk1, _⟩ := hshape e' he'
    rw [hk1]
    exact hkeys e he
  · exact hnd.sublist hkeq

theorem create_deployment_cases (mp : String) (mv : Option String)
    (tg : List String) (ea : String) (pg : Option Nat) (hpth : Option String)
    (gpus : List (Nat × Nat)) (pf : Nat → Bool) (lo hi : Nat)
    (sp : Except String Nat) (dep_id : String) (n1 n2 : Nat) (regs : Registry) :
    (∃ msg, create_deployment mp mv tg ea pg hpth gpus pf lo hi sp dep_id n1 n2 regs
        = (.noPort msg, regs, false))
  ∨ (∃ msg port, create_deployment mp mv tg ea pg hpth gpus pf lo hi sp dep_id n1 n2 regs
        = (.launchFailed msg,
           (dep_id, newRecord mp mv tg ea hpth (pick_gpu gpus pg) port dep_id n1
             none "failed" (some n2)) :: regs, true))
  ∨ (∃ pid port, create_deployment mp mv tg ea pg hpth gpus pf lo hi sp dep_id n1 n2 regs
        = (.created (newRecord mp mv tg ea hpth (pick_gpu gpus pg) port dep_id n1
             (some pid) "starting" none),
           (dep_id, newRecord mp mv tg ea hpth (pick_gpu gpus pg) port dep_id n1
             (some pid) "starting" none) :: regs, true)) := by
  cases hfp : find_free_port lo hi pf with
  | error msg => exact Or.inl ⟨msg, by simp [create_deployment, hfp]⟩
  | ok port =>
    cases sp with
    | error msg =>
      exact Or.inr (Or.inl ⟨msg, port, by simp [create_deployment, hfp]⟩)
    | ok pid =>
      exact Or.inr (Or.inr ⟨pid, port, by simp [create_deployment, hfp]⟩)

theorem inv_create (mp : String) (mv : Option String) (tg : List String)
    (ea : String) (pg : Option Nat) (hpth : Option String) (gpus : List (Nat × Nat))
    (pf : Nat → Bool) (lo hi : Nat) (sp : Except String Nat) (dep_id : String)
    (n1 n2 : Nat) (s : SysState) (hfresh : dep_id ∉ s.usedIds) (hinv : Inv s) :
    Inv (create_sys mp mv tg ea pg hpth gpus pf lo hi sp dep_id n1 n2 s) := by
  obtain ⟨hmain, hprobe, hused, hkeys, hnd⟩ := hinv
  have hkeyfresh : ∀ e ∈ s.regs, e.1 ≠ dep_id := by
    intro e he hc
    exact hfresh (hc ▸ hkeys e he)
  have hprobefresh : ∀ t ∈ s.probes, t.dep_id ≠ dep_id := by
    intro t ht hc
    exact hfresh (hc ▸ hused t ht)
  have hndcons : (dep_id :: s.regs.map Prod.fst).Nodup := by
    refine List.nodup_cons.mpr ⟨?_, hnd⟩
    intro hc
    rcases List.mem_map.mp hc with ⟨e, he, hE⟩
    exact hkeyfresh e he hE
  rcases create_deployment_cases mp mv tg ea pg hpth gpus pf lo hi sp dep_id n1 n2
      s.regs with ⟨msg, hc⟩ | ⟨msg, port, hc⟩ | ⟨pid, port, hc⟩
  · have hcs : create_sys mp mv tg ea pg hpth gpus pf lo hi sp dep_id n1 n2 s = s := by
      unfold create_sys
      rw [hc]
    rw [hcs]
    exact ⟨hmain, hprobe, hused, hkeys, hnd⟩
  · have hcs : create_sys mp mv tg ea pg hpth gpus pf lo hi sp dep_id n1 n2 s
        = { regs := (dep_id, newRecord mp mv tg ea hpth (pick_gpu gpus pg) port
              dep_id n1 none "failed" (some n2)) :: s.regs,
            probes := s.probes, usedIds := dep_id :: s.usedIds } := by
      unfold create_sys
      rw [hc]
    rw [hcs]
    refine ⟨?_, ?_, ?_, ?_, ?_⟩
    · intro e he hpid
      rcases List.mem_cons.mp he with rfl | he'
      · exact fun h =>
          absurd (show ("failed" : String) = "running" from h) (by decide)
      · exact hmain e he' hpid
    · intro t ht e he hk
      rcases List.mem_cons.mp he with rfl | he'
      · exact absurd hk.symm (hprobefresh t ht)
      · exact hprobe t ht e he' hk
    · exact fun t ht => List.mem_cons_of_mem _ (hused t ht)
    · intro e he
      rcases List.mem_cons.mp he with rfl | he'
      · exact List.mem_cons_self _ _
      · exact List.mem_cons_of_mem _ (hkeys e he')
    · exact hndcons
  · have hcs : create_sys mp mv tg ea pg hpth gpus pf lo hi sp dep_id n1 n2 s
        = { regs := (dep_id, newRecord mp mv tg ea hpth (pick_gpu gpus pg) port
              dep_id n1 (some pid) "starting" none) :: s.regs,
            probes := ProbeTask.mk dep_id pid port (effectiveHealthPath hpth)
              :: s.probes,
            usedIds := dep_id :: s.usedIds } := by
      unfold create_sys
      rw [hc]
      rfl
    rw [hcs]
    refine ⟨?_, ?_, ?_, ?_, ?_⟩
    · intro e he hpid
      rcases List.mem_cons.mp he with rfl | he'
      · exact absurd hpid (by simp [newRecord])
      · exact hmain e he' hpid
    · intro t ht e he hk
      rcases List.mem_cons.mp ht with rfl | ht'
      · rcases List.mem_cons.mp he with rfl | he'
        · simp [newRecord]
        · exact absurd hk (hkeyfresh e he')
      · rcases List.mem_cons.mp he with rfl | he'
        · exact absurd hk.symm (hprobefresh t ht')
        · exact hprobe t ht' e he' hk
    · intro t ht
      rcases List.mem_cons.mp ht with rfl | ht'
      · exact List.mem_cons_self _ _
      · exact List.mem_cons_of_mem _ (hused t ht')
    · intro e he
      rcases List.mem_cons.mp he with rfl | he'
      · exact List.mem_cons_self _ _
      · exact List.mem_cons_of_mem _ (hkeys e he')
    · exact hndcons

theorem inv_init : Inv initState := by
  refine ⟨?_, ?_, ?_, ?_, ?_⟩ <;> simp [initState, InvMain]

theorem inv_step {s s' : SysState} (hst : Step s s') (hinv : Inv s) : Inv s' := by
  cases hst with
  | create mp mv tg ea pg hpth gpus pf lo hi sp dep_id n1 n2 hfresh =>
    exact inv_create mp mv tg ea pg hpth gpus pf lo hi sp dep_id n1 n2 s hfresh hinv
  | get dep_id alive http =>
    exact inv_parts s _ s.probes (fun t ht => ht)
      (entryShape_get dep_id alive http s.regs)
      ((keys_get dep_id alive http s.regs) ▸ List.Sublist.refl _)
      (invMain_get dep_id alive http s.regs hinv.2.2.2.2 hinv.1) hinv
  | listRefresh model tag status alive http =>
    exact inv_parts s _ s.probes (fun t ht => ht)
      (entryShape_refreshMap s.regs alive http)
      ((keys_refreshMap s.regs alive http) ▸ List.Sublist.refl _)
      (invMain_refreshMap s.regs alive http hinv.1) hinv
  | deleteFull dep_id force ex pg now =>
    exact inv_parts s _ s.probes (fun t ht => ht)
      (entryShape_delete dep_id force ex pg now s.regs)
      (keys_delete dep_id force ex pg now s.regs)
      (invMain_delete dep_id force ex pg now s.regs hinv.1) hinv
  | deleteMark dep_id =>
    exact inv_parts s _ s.probes (fun t ht => ht)
      (entryShape_updateDep s.regs dep_id
        (fun d => { d with status := "stopping" }) (fun d => rfl))
      ((keys_updateDep s.regs dep_id _) ▸ List.Sublist.refl _)
      (invMain_updateDep_safe s.regs dep_id _ stopping_ne_running hinv.1) hinv
  | probeDone t ht alive http now =>
    exact inv_parts s _ (s.probes.erase t) (fun u hu => List.mem_of_mem_erase hu)
      (entryShape_bg t.dep_id t.pid alive http now s.regs)
      ((keys_bg t.dep_id t.pid alive http now s.regs) ▸ List.Sublist.refl _)
      (invMain_bg t.dep_id t.pid alive http now s.regs
        (fun e he hk => hinv.2.1 t ht e he hk) hinv.1) hinv

/-- C8.  Invariant of every registry state reachable from the empty store
by create, get, list, delete (including its intermediate
`status="stopping"` write) and background-probe completions: a stored
record whose `pid` is unset never has `status = "running"`. -/
theorem no_pid_never_running (s : SysState) (hs : Reachable s) :
    ∀ e ∈ s.regs, e.2.pid = none → e.2.status ≠ "running" := by
  have hinv : Inv s := by
    induction hs with
    | refl => exact inv_init
    | tail _ hstep ih => exact inv_step hstep ih
  exact hinv.1

/-- The system state after one concrete create request whose spawn fails. -/
def c8State : SysState :=
  create_sys "m" none [] "" none none [] (fun _ => true) 8000 8999
    (Except.error "boom") "d1" 5 6 initState

/-- The record that concrete failed create left behind. -/
def c8Rec : Deployment := (c8State.regs.lookup "d1").getD sampleRec

/-- Witness for C8: in the concrete reachable state holding one pid-less
`failed` record, that record does not report `running`. -/
theorem no_pid_never_running_witness : c8Rec.status ≠ "running" :=
  no_pid_never_running c8State
    (Relation.ReflTransGen.single
      (Step.create initState "m" none [] "" none none [] (fun _ => true)
        8000 8999 (Except.error "boom") "d1" 5 6 (by decide)))
    ("d1", c8Rec) (by decide) rfl

end LlmDeploy
